import Mathlib

/-!
Shallow embedding of the token-session and event-stream subsystems of the
box-node-sdk repository.

Part 1 models `src/sessions/app-auth-session.ts` (class AppAuthSession):
the token-refresh coalescing promise, the `getAccessToken` branch
structure, `revokeTokens` and `handleExpiredTokensError`.  The token
manager and the persistent token store are external collaborators; their
observable behaviour (grant results, store read results, clear results)
is passed in as explicit data, and asynchronous promises are modelled by
promise identifiers plus explicit completion events.

Part 2 models the EventStream class (Readable stream over the events
API): long-poll discovery, the long-poll wait request, event fetching,
deduplication, dedup-filter pruning, retry scheduling and destruction.
Each network continuation of the source becomes a Lean function from the
stream state and the settled result to the new state plus the list of
observable effects (requests issued, events pushed, errors emitted,
timers scheduled).
-/

namespace BoxSdk

/-- Token info as held by an AppAuthSession: the access token string and
its expiration timestamp (ms since epoch). -/
structure TokenInfo where
  accessToken : String
  expiresAt : Int
deriving Repr, DecidableEq

/-- The session configuration fields read by `getAccessToken`:
`expiredBufferMS` and `staleBufferMS`. -/
structure SessionConfig where
  expiredBufferMS : Int
  staleBufferMS : Int
deriving Repr, DecidableEq

/-- Modelled from the spec: `TokenManager.isAccessTokenValid` lives in the
token-manager module, which is not among the provided sources.  Per the
spec, a token is valid iff `now < expiresAt - expirationBuffer`; an
absent token is invalid. -/
def isAccessTokenValid (now : Int) (tokenInfo : Option TokenInfo) (buffer : Int) : Bool :=
  match tokenInfo with
  | none => false
  | some t => now < t.expiresAt - buffer

/-- Outcome of one `getAccessToken` call, as decided by the branch
structure of `AppAuthSession.getAccessToken` (app-auth-session.ts lines
142-174).  `storeRefresh` / `refresh` mean the call delegates to
`_refreshAppAuthAccessToken`; `storeCached` means the token read from the
store was valid, is cached in memory and its access token returned;
`cached` means the in-memory token was valid and returned immediately
(no grant call, no store access). -/
inductive GetTokenOutcome where
  | storeRefresh
  | storeCached (t : TokenInfo)
  | refresh
  | cached (tok : String)
deriving Repr, DecidableEq

/-- Embedding of `AppAuthSession.getAccessToken` from the source.
`tokenInfo` is the in-memory `_tokenInfo`, `hasStore` whether a token
store was configured, `storeRead` the token the store read resolves to
(only consulted on the store branch).  The expiration buffer is
`Math.max(expiredBufferMS, staleBufferMS)` exactly as in the source. -/
def getAccessToken (cfg : SessionConfig) (now : Int) (tokenInfo : Option TokenInfo)
    (hasStore : Bool) (storeRead : Option TokenInfo) : GetTokenOutcome :=
  let expirationBuffer := max cfg.expiredBufferMS cfg.staleBufferMS
  if tokenInfo.isNone && hasStore then
    if !(isAccessTokenValid now storeRead expirationBuffer) then
      GetTokenOutcome.storeRefresh
    else
      match storeRead with
      | some t => GetTokenOutcome.storeCached t
      | none => GetTokenOutcome.storeRefresh
  else if tokenInfo.isNone || !(isAccessTokenValid now tokenInfo expirationBuffer) then
    GetTokenOutcome.refresh
  else
    match tokenInfo with
    | some t => GetTokenOutcome.cached t.accessToken
    | none => GetTokenOutcome.refresh

/-- The `getAccessToken` algorithm as the spec words it (section 4.1,
numbered steps): compute `expirationBuffer = max(expiredBuffer,
staleBuffer)`; (1) if no token cached in memory and a store is
configured, read from the store, refresh if the stored token is invalid,
else cache and return it; (2) otherwise refresh if the in-memory token is
absent or invalid; (3) otherwise return the cached access token
immediately.  Written from the spec text, for comparison against the
source embedding. -/
def getAccessTokenSpec (cfg : SessionConfig) (now : Int) (tokenInfo : Option TokenInfo)
    (hasStore : Bool) (storeRead : Option TokenInfo) : GetTokenOutcome :=
  let expirationBuffer := max cfg.expiredBufferMS cfg.staleBufferMS
  match tokenInfo with
  | none =>
    if hasStore then
      match storeRead with
      | none => GetTokenOutcome.storeRefresh
      | some t =>
        if isAccessTokenValid now (some t) expirationBuffer then GetTokenOutcome.storeCached t
        else GetTokenOutcome.storeRefresh
    else GetTokenOutcome.refresh
  | some t =>
    if isAccessTokenValid now (some t) expirationBuffer then GetTokenOutcome.cached t.accessToken
    else GetTokenOutcome.refresh

/-- Dynamic state of an AppAuthSession relevant to refresh coalescing:
the cached `_tokenInfo` and the in-flight `_refreshPromise`, the latter
modelled as the identifier of the pending refresh promise. -/
structure SessionState where
  tokenInfo : Option TokenInfo
  refreshPromise : Option Nat
  hasStore : Bool
deriving Repr, DecidableEq

/-- A session together with the bookkeeping needed to observe refresh
traces: a fresh-promise-id counter and the number of
`getTokensJWTGrant` invocations made so far. -/
structure RefreshSys where
  st : SessionState
  nextId : Nat
  grantCalls : Nat
deriving Repr, DecidableEq

/-- One call to `_refreshAppAuthAccessToken` (app-auth-session.ts lines
107-131): if `_refreshPromise` is unset, start a grant (creating a new
promise and recording the grant invocation) and store it as the in-flight
promise; either way return the in-flight promise to the caller. -/
def refreshCall (sys : RefreshSys) : RefreshSys × Nat :=
  match sys.st.refreshPromise with
  | some p => (sys, p)
  | none =>
    let p := sys.nextId
    (⟨{ sys.st with refreshPromise := some p }, sys.nextId + 1, sys.grantCalls + 1⟩, p)

/-- Iterate `refreshCall` for `n` further concurrent callers, collecting
the promise each caller receives. -/
def refreshCallN : Nat → RefreshSys → RefreshSys × List Nat
  | 0, sys => (sys, [])
  | n + 1, sys =>
    let (sys', p) := refreshCall sys
    let (sys'', ps) := refreshCallN n sys'
    (sys'', p :: ps)

/-- Settlement of the in-flight grant: on success the `.then` handler
stores the new token info in memory and the promise resolves to its
access token; on failure the promise rejects with the grant error.  In
both cases the `.finally` handler clears `_refreshPromise`.  The returned
`Except` is the single settlement value of the in-flight promise, which
every attached caller observes. -/
def refreshComplete (sys : RefreshSys) (result : Except String TokenInfo) :
    RefreshSys × Except String String :=
  match result with
  | Except.ok info =>
    (⟨{ sys.st with tokenInfo := some info, refreshPromise := none },
      sys.nextId, sys.grantCalls⟩, Except.ok info.accessToken)
  | Except.error e =>
    (⟨{ sys.st with refreshPromise := none }, sys.nextId, sys.grantCalls⟩, Except.error e)

/-- Result of a `getAccessToken` call at the promise level: either the
caller is attached to refresh promise `p`, or it gets a value directly. -/
inductive GetResult where
  | attached (p : Nat)
  | value (tok : String)
deriving Repr, DecidableEq

/-- The `getAccessToken` call as a transition on the session: the refresh branches
invoke `_refreshAppAuthAccessToken` (i.e. `refreshCall`); the
store-cached branch writes the stored token into memory; the cached
branch returns the in-memory access token without touching anything. -/
def getAccessTokenRun (cfg : SessionConfig) (now : Int) (storeRead : Option TokenInfo)
    (sys : RefreshSys) : RefreshSys × GetResult :=
  match getAccessToken cfg now sys.st.tokenInfo sys.st.hasStore storeRead with
  | GetTokenOutcome.storeRefresh =>
    let (sys', p) := refreshCall sys
    (sys', GetResult.attached p)
  | GetTokenOutcome.refresh =>
    let (sys', p) := refreshCall sys
    (sys', GetResult.attached p)
  | GetTokenOutcome.storeCached t =>
    (⟨{ sys.st with tokenInfo := some t }, sys.nextId, sys.grantCalls⟩,
      GetResult.value t.accessToken)
  | GetTokenOutcome.cached tok => (sys, GetResult.value tok)

/-- Settled outcome of a promise: fulfilled with a value or rejected with
an error. -/
inductive PromiseOutcome (α : Type) (ε : Type) where
  | resolved (a : α)
  | rejected (e : ε)
deriving Repr, DecidableEq

/-- Modelled from the spec: `errors.unwrapAndThrow` lives in the util
module, which is not among the provided sources.  Per the spec, when
clearing the store fails "that secondary error is surfaced instead", so
the model rethrows the clear error itself. -/
def unwrapAndThrow (e : String) : String := e

/-- Embedding of `AppAuthSession.handleExpiredTokensError` (app-auth-session.ts lines
222-235): with no store, resolve with the original error; with a store,
invoke `clearAsync` first (the returned Bool records that the clear was
invoked), then throw the original error if clearing succeeded, or the
(unwrapped) clear error if clearing failed. -/
def handleExpiredTokensError (hasStore : Bool) (clearResult : Except String Unit)
    (err : String) : PromiseOutcome String String × Bool :=
  if !hasStore then
    (PromiseOutcome.resolved err, false)
  else
    match clearResult with
    | Except.ok _ => (PromiseOutcome.rejected err, true)
    | Except.error e => (PromiseOutcome.rejected (unwrapAndThrow e), true)

/-- Embedding of `AppAuthSession.revokeTokens` (app-auth-session.ts lines 182-188):
capture `(this._tokenInfo || {}).accessToken` (absent when no token is
held), clear the in-memory token, and return the access-token argument
passed to `tokenManager.revokeTokens` together with the new in-memory
token field. -/
def revokeTokens (tokenInfo : Option TokenInfo) : Option String × Option TokenInfo :=
  let accessToken := tokenInfo.map TokenInfo.accessToken
  (accessToken, none)

/-- The `revokeTokens` call composed with the external grantor: the call resolves
to whatever `tokenManager.revokeTokens` yields for the captured
access-token argument. -/
def revokeTokensRun (grantorRevoke : Option String → Except String Unit)
    (tokenInfo : Option TokenInfo) : Except String Unit :=
  grantorRevoke (revokeTokens tokenInfo).1

/-! ### Part 2: EventStream -/

/-- The long-poll coordinates returned by the events API
(`LongPollInfo` typedef in the event-stream source). -/
structure LongPollInfo where
  max_retries : Nat
  retry_timeout : Nat
  url : String
deriving Repr, DecidableEq

/-- An event from the events API; only `event_id` is inspected by the
stream. -/
structure BoxEvent where
  event_id : String
deriving Repr, DecidableEq

/-- An events-API fetch response.  `entries` is `none` when the field is
absent or falsy (a present empty array is `some []`, which is truthy in
the source's check); `next_stream_position` is `none` when absent, and a
present empty string is falsy. -/
structure EventsResponse where
  entries : Option (List BoxEvent)
  next_stream_position : Option String
deriving Repr, DecidableEq

/-- A long-poll wait response; the source only inspects `message`. -/
structure PollData where
  message : Option String
deriving Repr, DecidableEq

/-- An error delivered to one of the stream's `.catch` handlers; the
source only inspects its `authExpired` marker. -/
structure FeedErr where
  authExpired : Bool
  msg : String
deriving Repr, DecidableEq

/-- The EventStream options record (`retryDelay`,
`deduplicationFilterSize`, `fetchInterval`). -/
structure ESOptions where
  retryDelay : Nat
  deduplicationFilterSize : Nat
  fetchInterval : Nat
deriving Repr, DecidableEq

/-- The `DEFAULT_OPTIONS` record from the source. -/
def DEFAULT_OPTIONS : ESOptions :=
  ⟨1000, 5000, 1000⟩

/-- Mutable state of one EventStream instance: the stream position, the
current long-poll info, the per-URL attempt counter `_longPollRetries`,
the dedup filter `_dedupHash` (modelled as its key list in insertion
order, without duplicates), whether a retry timer is pending, the
`destroyed` flag of the underlying Readable, and the options. -/
structure ESState where
  streamPosition : String
  longPollInfo : Option LongPollInfo
  longPollRetries : Nat
  dedupHash : List String
  retryTimer : Bool
  destroyed : Bool
  options : ESOptions
deriving Repr, DecidableEq

/-- Observable effects of one synchronous segment of the stream's cycle:
requests issued to the client, events pushed to the consumer, errors
emitted, retry timers scheduled, and the close notification. -/
inductive Effect where
  | requestPollInfo
  | longPollRequest (url : String) (query : List (String × String)) (timeoutMs : Nat)
  | fetchRequest (streamPosition : String) (limit : Nat)
  | pushEvent (e : BoxEvent)
  | emitError (e : FeedErr)
  | scheduleRetry (delayMs : Nat)
  | emitClose
deriving Repr, DecidableEq

/-- Whether an effect is an `error` emission. -/
def Effect.isError : Effect → Bool
  | Effect.emitError _ => true
  | _ => false

/-- Whether an effect is a `push` to the consumer. -/
def Effect.isPush : Effect → Bool
  | Effect.pushEvent _ => true
  | _ => false

/-- Index of the first `'?'` in a character list, as `String.indexOf`
would report it. -/
def firstQMark : List Char → Option Nat
  | [] => none
  | c :: cs =>
    if c = '?' then some 0
    else (firstQMark cs).map (· + 1)

/-- Split a character list at every occurrence of a separator. -/
def splitOnChar : List Char → Char → List (List Char)
  | [], _ => [[]]
  | c :: cs, sep =>
    if c = sep then [] :: splitOnChar cs sep
    else
      match splitOnChar cs sep with
      | [] => [[c]]
      | w :: ws => (c :: w) :: ws

/-- Split a query part at its first `'='`: the key, and the value when an
`'='` is present. -/
def splitFirstEq : List Char → List Char × Option (List Char)
  | [] => ([], none)
  | c :: cs =>
    if c = '=' then ([], some cs)
    else
      match splitFirstEq cs with
      | (k, v) => (c :: k, v)

/-- Modelled from the spec: `qs.parse` is Node's querystring module, not
repository code.  The spec only requires that query parameters already
present in the long-poll URL be preserved; the model parses
`k1=v1&k2=v2` into an association list (a part with no `=` maps to the
empty value, empty parts are dropped). -/
def qsParse (q : String) : List (String × String) :=
  (splitOnChar q.toList '&').filterMap fun part =>
    if part.isEmpty then none
    else
      match splitFirstEq part with
      | (k, none) => some (String.mk k, "")
      | (k, some v) => some (String.mk k, String.mk v)

/-- The URL surgery in `doLongPoll` (event-stream source lines 162-170):
find the first `'?'`; when it exists at a positive index, strip the query
string off the URL and parse it, otherwise leave the URL whole with an
empty query object. -/
def splitUrlQuery (url : String) : String × List (String × String) :=
  let cs := url.toList
  match firstQMark cs with
  | some i =>
    if i > 0 then
      (String.mk (cs.take i), qsParse (String.mk (cs.drop (i + 1))))
    else (url, [])
  | none => (url, [])

/-- JS object property assignment on the parsed query object: set key `k`
to `v`, replacing any existing binding. -/
def setParam (q : List (String × String)) (k v : String) : List (String × String) :=
  q.filter (fun kv => kv.1 ≠ k) ++ [(k, v)]

/-- Insert an event id into the dedup filter
(`this._dedupHash[event.event_id] = true`): the key set gains `id` if not
already present. -/
def insertId (hash : List String) (id : String) : List String :=
  if hash.contains id then hash else hash ++ [id]

/-- Record every pushed event's id in the dedup filter, in push order. -/
def pushIds (hash : List String) (evs : List BoxEvent) : List String :=
  evs.foldl (fun h e => insertId h e.event_id) hash

/-- Embedding of `cleanupDedupFilter` (event-stream source lines 305-316): delete
every tracked id that no event in the latest `entries` list carries. -/
def cleanupDedupFilter (hash : List String) (latestEvents : List BoxEvent) : List String :=
  hash.filter (fun id => latestEvents.any (fun e => e.event_id = id))

/-- Entry of `getLongPollInfo` (source lines 121-127): no-op when
destroyed, otherwise issue the long-poll-info request. -/
def getLongPollInfo (s : ESState) : ESState × List Effect :=
  if s.destroyed then (s, [])
  else (s, [Effect.requestPollInfo])

/-- Embedding of `retryPollInfo` (source lines 210-217): when not destroyed, schedule
a `getLongPollInfo` retry after `retryDelay` ms and record the pending
timer. -/
def retryPollInfo (s : ESState) : ESState × List Effect :=
  if !s.destroyed then
    ({ s with retryTimer := true }, [Effect.scheduleRetry s.options.retryDelay])
  else (s, [])

/-- Embedding of `doLongPoll` (source lines 152-181 up to the wait request): no-op
when destroyed; re-discover when the attempt counter exceeds
`max_retries`; otherwise split the URL's query string, merge in
`stream_position`, increment the attempt counter, and issue the wait
request with timeout `retry_timeout * 1000`.  The source dereferences
`_longPollInfo` unconditionally here (it is always set on this path); the
`none` branch is unreachable and modelled as a no-op. -/
def doLongPoll (s : ESState) : ESState × List Effect :=
  if s.destroyed then (s, [])
  else
    match s.longPollInfo with
    | none => (s, [])
    | some info =>
      if s.longPollRetries > info.max_retries then getLongPollInfo s
      else
        let uq := splitUrlQuery info.url
        let query := setParam uq.2 "stream_position" s.streamPosition
        ({ s with longPollRetries := s.longPollRetries + 1 },
          [Effect.longPollRequest uq.1 query (info.retry_timeout * 1000)])

/-- Entry of `fetchEvents` (source lines 224-237 up to the fetch request):
no-op when destroyed, otherwise (after the rate limiter resolves) issue
the events request at the current stream position with limit 500. -/
def fetchEvents (s : ESState) : ESState × List Effect :=
  if s.destroyed then (s, [])
  else (s, [Effect.fetchRequest s.streamPosition 500])

/-- Continuation of the long-poll-info request (the `.then`/`.catch` of
`getLongPollInfo`, source lines 128-142): on success store the new info,
reset the attempt counter and proceed to `doLongPoll`; on failure emit
the error (unconditionally) and schedule a retry unless the error carries
the `authExpired` marker. -/
def onPollInfoResult (s : ESState) (r : Except FeedErr LongPollInfo) : ESState × List Effect :=
  match r with
  | Except.ok info =>
    doLongPoll { s with longPollInfo := some info, longPollRetries := 0 }
  | Except.error e =>
    if !e.authExpired then
      let sr := retryPollInfo s
      (sr.1, Effect.emitError e :: sr.2)
    else (s, [Effect.emitError e])

/-- Continuation of the long-poll wait request (the `.then`/`.catch` of
`doLongPoll`, source lines 182-201): on failure, retry after a delay
(without emitting); on success, short-circuit when destroyed, re-discover
on `reconnect`, re-wait on any message other than `new_change`, and fetch
events on `new_change`. -/
def onLongPollResult (s : ESState) (r : Except FeedErr PollData) : ESState × List Effect :=
  match r with
  | Except.error _ => retryPollInfo s
  | Except.ok data =>
    if s.destroyed then (s, [])
    else if data.message = some "reconnect" then getLongPollInfo s
    else if data.message ≠ some "new_change" then doLongPoll s
    else fetchEvents s

/-- Continuation of the events fetch (the `.then`/`.catch` inside
`fetchEvents`, source lines 238-292).  On success (note: no destroyed
check on this path in the source): treat a response without a truthy
`entries` or `next_stream_position` as a re-poll; otherwise advance the
stream position, filter the entries against the dedup filter as it stood
before this batch, re-poll if nothing survives, otherwise record each
surviving event's id and push it, and prune the dedup filter when its
size has reached `deduplicationFilterSize`.  On failure emit the error
and schedule a retry. -/
def onFetchResult (s : ESState) (r : Except FeedErr EventsResponse) : ESState × List Effect :=
  match r with
  | Except.error e =>
    let sr := retryPollInfo s
    (sr.1, Effect.emitError e :: sr.2)
  | Except.ok events =>
    match events.entries, events.next_stream_position with
    | some entries, some nsp =>
      if nsp = "" then doLongPoll s
      else
        let s1 := { s with streamPosition := nsp }
        let newEvents := entries.filter (fun e => !s1.dedupHash.contains e.event_id)
        if newEvents.isEmpty then doLongPoll s1
        else
          let newHash := pushIds s1.dedupHash newEvents
          let prunedHash :=
            if s.options.deduplicationFilterSize ≤ newHash.length then
              cleanupDedupFilter newHash entries
            else newHash
          ({ s1 with dedupHash := prunedHash }, newEvents.map Effect.pushEvent)
    | _, _ => doLongPoll s

/-- The polyfill `destroy` (source lines 351-359): when not yet
destroyed, schedule the `close` notification, set the destroyed flag and
run `_destroy` (which clears the pending retry timer); when already
destroyed, do nothing. -/
def destroy (s : ESState) : ESState × List Effect :=
  if !s.destroyed then
    ({ s with destroyed := true, retryTimer := false }, [Effect.emitClose])
  else (s, [])

/-- One input to the stream's state machine: a consumer pull (`_read`), a
settled network request, the retry timer firing, or a `destroy` call. -/
inductive FeedInput where
  | read
  | pollInfoResult (r : Except FeedErr LongPollInfo)
  | longPollResult (r : Except FeedErr PollData)
  | fetchResult (r : Except FeedErr EventsResponse)
  | timerFire
  | destroyCall
deriving Repr

/-- The stream's step function: dispatch each input to the corresponding
source handler.  A firing retry timer is no longer pending and re-enters
through `getLongPollInfo`. -/
def feedStep (s : ESState) (i : FeedInput) : ESState × List Effect :=
  match i with
  | FeedInput.read => getLongPollInfo s
  | FeedInput.pollInfoResult r => onPollInfoResult s r
  | FeedInput.longPollResult r => onLongPollResult s r
  | FeedInput.fetchResult r => onFetchResult s r
  | FeedInput.timerFire => getLongPollInfo { s with retryTimer := false }
  | FeedInput.destroyCall => destroy s

/-! ### Theorems: AppAuthSession claims -/

/-- C4: every `getAccessToken` call follows the spec's algorithm: the
validity buffer is `max(expiredBufferMS, staleBufferMS)`; with no
in-memory token and a configured store, the stored token is refreshed if
invalid and otherwise cached and returned; otherwise an absent or invalid
in-memory token triggers a refresh; otherwise the cached access token is
returned immediately with no grant call and no store access, where
validity means `now < expiresAt - buffer`. -/
theorem c4_get_access_token_algorithm (cfg : SessionConfig) (now : Int)
    (tokenInfo : Option TokenInfo) (hasStore : Bool) (storeRead : Option TokenInfo) :
    getAccessToken cfg now tokenInfo hasStore storeRead =
      getAccessTokenSpec cfg now tokenInfo hasStore storeRead := by
  unfold getAccessToken getAccessTokenSpec
  cases tokenInfo with
  | none =>
    cases hasStore with
    | false => simp
    | true =>
      cases storeRead with
      | none => simp [isAccessTokenValid]
      | some t =>
        by_cases hv : isAccessTokenValid now (some t) (max cfg.expiredBufferMS cfg.staleBufferMS)
        · simp [hv]
        · simp [hv]
  | some t =>
    by_cases hv : isAccessTokenValid now (some t) (max cfg.expiredBufferMS cfg.staleBufferMS)
    · simp [hv]
    · simp [hv]

/-- C6: `handleExpiredTokensError` with no store settles with the
original error and never touches a store; with a store it invokes clear
first, rejects with the original error when clearing succeeds, and
rejects with the store's clear error instead when clearing fails. -/
theorem c6_handle_expired_tokens (clearResult : Except String Unit) (err : String) :
    handleExpiredTokensError false clearResult err = (PromiseOutcome.resolved err, false) ∧
    handleExpiredTokensError true (Except.ok ()) err = (PromiseOutcome.rejected err, true) ∧
    (∀ e, handleExpiredTokensError true (Except.error e) err =
      (PromiseOutcome.rejected e, true)) := by
  refine ⟨rfl, rfl, fun e => ?_⟩
  simp [handleExpiredTokensError, unwrapAndThrow]

/-- C10: revoking tokens on a session that never acquired a token leaves
the in-memory token cleared, still passes an absent access-token value to
the grantor, and the call's outcome is exactly the grantor's outcome for
that absent token. -/
theorem c10_revoke_never_acquired (grantorRevoke : Option String → Except String Unit) :
    revokeTokens (none : Option TokenInfo) = (none, none) ∧
    revokeTokensRun grantorRevoke (none : Option TokenInfo) = grantorRevoke none := by
  exact ⟨rfl, rfl⟩

/-- C1: with a refresh promise `p` in flight, any number of further
`_refreshAppAuthAccessToken` calls leave the session unchanged (in
particular the grant count) and return `p` to every caller; a
`getAccessToken` that observes an invalid token attaches to `p`; the
in-flight marker is cleared on completion whether the grant succeeds or
fails; and starting from no in-flight promise, the first call performs
exactly one grant and installs the new promise. -/
theorem c1_refresh_coalescing (sys : RefreshSys) (p : Nat)
    (h : sys.st.refreshPromise = some p) :
    (∀ n, refreshCallN n sys = (sys, List.replicate n p)) ∧
    (∀ cfg now storeRead,
      isAccessTokenValid now sys.st.tokenInfo (max cfg.expiredBufferMS cfg.staleBufferMS)
        = false →
      isAccessTokenValid now storeRead (max cfg.expiredBufferMS cfg.staleBufferMS)
        = false →
      getAccessTokenRun cfg now storeRead sys = (sys, GetResult.attached p)) ∧
    (∀ r, ((refreshComplete sys r).1).st.refreshPromise = none) ∧
    (∀ sys0 : RefreshSys, sys0.st.refreshPromise = none →
      (refreshCall sys0).1.grantCalls = sys0.grantCalls + 1 ∧
      (refreshCall sys0).1.st.refreshPromise = some sys0.nextId) := by
  have hcall : refreshCall sys = (sys, p) := by
    unfold refreshCall
    rw [h]
  refine ⟨?_, ?_, ?_, ?_⟩
  · intro n
    induction n with
    | zero => rfl
    | succ n ih =>
      simp [refreshCallN, hcall, ih, List.replicate_succ]
  · intro cfg now storeRead hmem hstore
    unfold getAccessTokenRun getAccessToken
    cases hti : sys.st.tokenInfo with
    | none =>
      cases hhs : sys.st.hasStore with
      | true => simp [hstore, hcall]
      | false => simp [hcall]
    | some t =>
      rw [hti] at hmem
      simp [hmem, hcall]
  · intro r
    cases r <;> rfl
  · intro sys0 h0
    unfold refreshCall
    rw [h0]
    exact ⟨rfl, rfl⟩

/-- Witness for C1: a concrete session with promise 5 in flight; three
concurrent refresh calls leave it unchanged and all attach to promise 5. -/
theorem c1_refresh_coalescing_witness :
    refreshCallN 3 ⟨⟨none, some 5, true⟩, 6, 1⟩ =
      (⟨⟨none, some 5, true⟩, 6, 1⟩, List.replicate 3 5) :=
  (c1_refresh_coalescing ⟨⟨none, some 5, true⟩, 6, 1⟩ 5 rfl).1 3

/-! ### Theorems: EventStream claims -/

/-- The `getLongPollInfo` entry never changes the state. -/
theorem getLongPollInfo_fst (s : ESState) : (getLongPollInfo s).1 = s := by
  unfold getLongPollInfo
  split <;> rfl

/-- The effects of `getLongPollInfo` neither emit errors nor push. -/
theorem getLongPollInfo_effects (s : ESState) :
    ∀ eff ∈ (getLongPollInfo s).2, eff.isError = false ∧ eff.isPush = false := by
  unfold getLongPollInfo
  split <;> intro eff h <;> simp at h
  subst h
  exact ⟨rfl, rfl⟩

/-- Scheduling a retry preserves the stream position. -/
theorem retryPollInfo_streamPosition (s : ESState) :
    (retryPollInfo s).1.streamPosition = s.streamPosition := by
  unfold retryPollInfo
  split <;> rfl

/-- The effects of `retryPollInfo` neither emit errors nor push. -/
theorem retryPollInfo_effects (s : ESState) :
    ∀ eff ∈ (retryPollInfo s).2, eff.isError = false ∧ eff.isPush = false := by
  unfold retryPollInfo
  split <;> intro eff h <;> simp at h
  subst h
  exact ⟨rfl, rfl⟩

/-- The `doLongPoll` step preserves the stream position. -/
theorem doLongPoll_streamPosition (s : ESState) :
    (doLongPoll s).1.streamPosition = s.streamPosition := by
  unfold doLongPoll
  split
  · rfl
  · split
    · rfl
    · split
      · rw [getLongPollInfo_fst]
      · rfl

/-- The `doLongPoll` step preserves the dedup filter. -/
theorem doLongPoll_dedupHash (s : ESState) :
    (doLongPoll s).1.dedupHash = s.dedupHash := by
  unfold doLongPoll
  split
  · rfl
  · split
    · rfl
    · split
      · rw [getLongPollInfo_fst]
      · rfl

/-- The effects of `doLongPoll` neither emit errors nor push: it only
issues requests. -/
theorem doLongPoll_effects (s : ESState) :
    ∀ eff ∈ (doLongPoll s).2, eff.isError = false ∧ eff.isPush = false := by
  unfold doLongPoll
  split
  · intro eff h; simp at h
  · split
    · intro eff h; simp at h
    · split
      · exact getLongPollInfo_effects _
      · intro eff h
        simp at h
        subst h
        exact ⟨rfl, rfl⟩

/-- The `fetchEvents` entry never changes the state. -/
theorem fetchEvents_fst (s : ESState) : (fetchEvents s).1 = s := by
  unfold fetchEvents
  split <;> rfl

/-- The effects of `fetchEvents` neither emit errors nor push. -/
theorem fetchEvents_effects (s : ESState) :
    ∀ eff ∈ (fetchEvents s).2, eff.isError = false ∧ eff.isPush = false := by
  unfold fetchEvents
  split <;> intro eff h <;> simp at h
  subst h
  exact ⟨rfl, rfl⟩

/-- A fetch response without a truthy entries list or next cursor just
re-enters the long poll. -/
theorem onFetchResult_malformed (s : ESState) (ent : Option (List BoxEvent))
    (nsp : Option String) (h : ent = none ∨ nsp = none ∨ nsp = some "") :
    onFetchResult s (Except.ok ⟨ent, nsp⟩) = doLongPoll s := by
  rcases h with h | h | h
  · subst h
    cases nsp <;> rfl
  · subst h
    cases ent <;> rfl
  · subst h
    cases ent with
    | none => rfl
    | some l => simp [onFetchResult]

/-- Unfolding equation for the well-formed fetch continuation. -/
theorem onFetchResult_ok (s : ESState) (entries : List BoxEvent) (nsp : String)
    (hn : nsp ≠ "") :
    onFetchResult s (Except.ok ⟨some entries, some nsp⟩) =
      (if (entries.filter (fun e => !s.dedupHash.contains e.event_id)).isEmpty then
        doLongPoll { s with streamPosition := nsp }
      else
        ({ s with
            streamPosition := nsp
            dedupHash :=
              if s.options.deduplicationFilterSize ≤
                  (pushIds s.dedupHash
                    (entries.filter (fun e => !s.dedupHash.contains e.event_id))).length then
                cleanupDedupFilter
                  (pushIds s.dedupHash
                    (entries.filter (fun e => !s.dedupHash.contains e.event_id))) entries
              else
                pushIds s.dedupHash
                  (entries.filter (fun e => !s.dedupHash.contains e.event_id)) },
          (entries.filter (fun e => !s.dedupHash.contains e.event_id)).map
            Effect.pushEvent)) := by
  simp only [onFetchResult, if_neg hn]

/-- The discovery continuation preserves the stream position. -/
theorem onPollInfoResult_streamPosition (s : ESState) (r : Except FeedErr LongPollInfo) :
    (onPollInfoResult s r).1.streamPosition = s.streamPosition := by
  cases r with
  | ok info =>
    simp only [onPollInfoResult]
    exact doLongPoll_streamPosition _
  | error e =>
    simp only [onPollInfoResult]
    split
    · exact retryPollInfo_streamPosition s
    · rfl

/-- The long-poll continuation preserves the stream position. -/
theorem onLongPollResult_streamPosition (s : ESState) (r : Except FeedErr PollData) :
    (onLongPollResult s r).1.streamPosition = s.streamPosition := by
  cases r with
  | error e =>
    simp only [onLongPollResult]
    exact retryPollInfo_streamPosition s
  | ok d =>
    simp only [onLongPollResult]
    split
    · rfl
    · split
      · rw [getLongPollInfo_fst]
      · split
        · exact doLongPoll_streamPosition _
        · rw [fetchEvents_fst]

/-- Destruction preserves the stream position. -/
theorem destroy_streamPosition (s : ESState) :
    (destroy s).1.streamPosition = s.streamPosition := by
  unfold destroy
  split <;> rfl

/-- C5: the stream position is updated only by a fetch continuation whose
response carries a truthy entries list and a truthy next cursor, in which
case it is set to that cursor; every other step of the feed leaves it
unchanged.  A fetch response lacking either field is a no-op: position
unchanged and the resulting effects neither emit an error nor push. -/
theorem c5_stream_position_source (s : ESState) (i : FeedInput) :
    ((feedStep s i).1.streamPosition = s.streamPosition ∨
      ∃ resp entries nsp,
        i = FeedInput.fetchResult (Except.ok resp) ∧
        resp.entries = some entries ∧ resp.next_stream_position = some nsp ∧
        nsp ≠ "" ∧ (feedStep s i).1.streamPosition = nsp) ∧
    (∀ resp : EventsResponse,
      (resp.entries = none ∨ resp.next_stream_position = none ∨
        resp.next_stream_position = some "") →
      (feedStep s (FeedInput.fetchResult (Except.ok resp))).1.streamPosition
          = s.streamPosition ∧
      ∀ eff ∈ (feedStep s (FeedInput.fetchResult (Except.ok resp))).2,
        eff.isError = false ∧ eff.isPush = false) := by
  constructor
  · cases i with
    | read => exact Or.inl (by rw [show feedStep s FeedInput.read = getLongPollInfo s from rfl, getLongPollInfo_fst])
    | pollInfoResult r => exact Or.inl (onPollInfoResult_streamPosition s r)
    | longPollResult r => exact Or.inl (onLongPollResult_streamPosition s r)
    | fetchResult r =>
      cases r with
      | error e =>
        refine Or.inl ?_
        show ((retryPollInfo s).1, _).1.streamPosition = _
        exact retryPollInfo_streamPosition s
      | ok resp =>
        obtain ⟨ent, nsp⟩ := resp
        cases ent with
        | none =>
          refine Or.inl ?_
          show (onFetchResult s (Except.ok ⟨none, nsp⟩)).1.streamPosition = _
          rw [onFetchResult_malformed s none nsp (Or.inl rfl)]
          exact doLongPoll_streamPosition s
        | some entries =>
          cases nsp with
          | none =>
            refine Or.inl ?_
            show (onFetchResult s (Except.ok ⟨some entries, none⟩)).1.streamPosition = _
            rw [onFetchResult_malformed s (some entries) none (Or.inr (Or.inl rfl))]
            exact doLongPoll_streamPosition s
          | some nsp =>
            by_cases hempty : nsp = ""
            · subst hempty
              refine Or.inl ?_
              show (onFetchResult s (Except.ok ⟨some entries, some ""⟩)).1.streamPosition = _
              rw [onFetchResult_malformed s (some entries) (some "") (Or.inr (Or.inr rfl))]
              exact doLongPoll_streamPosition s
            · refine Or.inr ⟨⟨some entries, some nsp⟩, entries, nsp, rfl, rfl, rfl, hempty, ?_⟩
              show (onFetchResult s (Except.ok ⟨some entries, some nsp⟩)).1.streamPosition = _
              rw [onFetchResult_ok s entries nsp hempty]
              split
              · exact doLongPoll_streamPosition _
              · rfl
    | timerFire => exact Or.inl (by rw [show feedStep s FeedInput.timerFire = getLongPollInfo { s with retryTimer := false } from rfl, getLongPollInfo_fst])
    | destroyCall => exact Or.inl (destroy_streamPosition s)
  · intro resp hmal
    obtain ⟨ent, nsp⟩ := resp
    have hstep : feedStep s (FeedInput.fetchResult (Except.ok ⟨ent, nsp⟩)) = doLongPoll s :=
      onFetchResult_malformed s ent nsp hmal
    rw [hstep]
    exact ⟨doLongPoll_streamPosition s, doLongPoll_effects s⟩

/-- Witness for C5: a concrete feed state and a fetch response with a
missing entries list: the position is not advanced. -/
theorem c5_stream_position_source_witness :
    (feedStep ⟨"p0", none, 0, [], false, false, DEFAULT_OPTIONS⟩
        (FeedInput.fetchResult (Except.ok ⟨none, some "p9"⟩))).1.streamPosition =
      (⟨"p0", none, 0, [], false, false, DEFAULT_OPTIONS⟩ : ESState).streamPosition :=
  ((c5_stream_position_source ⟨"p0", none, 0, [], false, false, DEFAULT_OPTIONS⟩
    (FeedInput.fetchResult (Except.ok ⟨none, some "p9"⟩))).2 ⟨none, some "p9"⟩
    (Or.inl rfl)).1

/-- Counterexample to C2: a fetch response `[A, B, A, C]` with no id
previously seen is pushed as `A, B, A, C` — the repeated `A` is emitted
twice, because the dedup filter is consulted once, before the batch's own
ids are recorded.  The feed does not emit `A, B, C` exactly once each. -/
theorem c2_within_batch_duplicate_counterexample :
    (onFetchResult ⟨"p0", none, 0, [], false, false, DEFAULT_OPTIONS⟩
        (Except.ok ⟨some [⟨"A"⟩, ⟨"B"⟩, ⟨"A"⟩, ⟨"C"⟩], some "p1"⟩)).2 =
      [Effect.pushEvent ⟨"A"⟩, Effect.pushEvent ⟨"B"⟩, Effect.pushEvent ⟨"A"⟩,
        Effect.pushEvent ⟨"C"⟩] ∧
    ((onFetchResult ⟨"p0", none, 0, [], false, false, DEFAULT_OPTIONS⟩
        (Except.ok ⟨some [⟨"A"⟩, ⟨"B"⟩, ⟨"A"⟩, ⟨"C"⟩], some "p1"⟩)).2.count
      (Effect.pushEvent ⟨"A"⟩)) = 2 := by
  exact ⟨by decide, by decide⟩

/-- C2 (amended): the events pushed by a well-formed fetch are exactly
the response entries whose id was not in the dedup set before the fetch,
in original order — so an id already recorded is never emitted again, but
an id repeated within one response is emitted at each occurrence. -/
theorem c2_dedup_across_fetches (s : ESState) (entries : List BoxEvent) (nsp : String)
    (hn : nsp ≠ "") :
    ((onFetchResult s (Except.ok ⟨some entries, some nsp⟩)).2.filter Effect.isPush =
      (entries.filter (fun e => !s.dedupHash.contains e.event_id)).map Effect.pushEvent) ∧
    (∀ ev : BoxEvent, s.dedupHash.contains ev.event_id = true →
      Effect.pushEvent ev ∉ (onFetchResult s (Except.ok ⟨some entries, some nsp⟩)).2) := by
  rw [onFetchResult_ok s entries nsp hn]
  by_cases hemp : (entries.filter (fun e => !s.dedupHash.contains e.event_id)).isEmpty = true
  · rw [if_pos hemp]
    have hnil : entries.filter (fun e => !s.dedupHash.contains e.event_id) = [] :=
      List.isEmpty_iff.mp hemp
    constructor
    · rw [hnil]
      simp only [List.map_nil]
      rw [List.filter_eq_nil_iff]
      intro eff heff
      have := (doLongPoll_effects _ eff heff).2
      simp [this]
    · intro ev hev hmem
      have := (doLongPoll_effects _ _ hmem).2
      simp [Effect.isPush] at this
  · rw [if_neg hemp]
    constructor
    · rw [List.filter_eq_self.mpr]
      intro eff heff
      obtain ⟨ev, hev, rfl⟩ := List.mem_map.mp heff
      rfl
    · intro ev hev hmem
      obtain ⟨ev', hev', heq⟩ := List.mem_map.mp hmem
      cases heq
      have := List.of_mem_filter hev'
      rw [hev] at this
      simp at this

/-- Witness for C2 (amended): with id `A` already tracked, the response
`[A, B]` pushes only `B`. -/
theorem c2_dedup_across_fetches_witness :
    (onFetchResult ⟨"p0", none, 0, ["A"], false, false, DEFAULT_OPTIONS⟩
        (Except.ok ⟨some [⟨"A"⟩, ⟨"B"⟩], some "p1"⟩)).2.filter Effect.isPush =
      [Effect.pushEvent ⟨"B"⟩] :=
  ((c2_dedup_across_fetches ⟨"p0", none, 0, ["A"], false, false, DEFAULT_OPTIONS⟩
      [⟨"A"⟩, ⟨"B"⟩] "p1" (by decide)).1).trans (by decide)

/-- C7: after a batch is pushed, if the tracked-id count has reached
`deduplicationFilterSize` the dedup set is pruned to exactly the tracked
ids appearing (by `event_id`) in the just-fetched entries; below the
threshold the set is left as the pre-batch set plus the pushed ids. -/
theorem c7_dedup_pruning (s : ESState) (entries : List BoxEvent) (nsp : String)
    (hn : nsp ≠ "")
    (hne : (entries.filter (fun e => !s.dedupHash.contains e.event_id)).isEmpty = false) :
    (s.options.deduplicationFilterSize ≤
        (pushIds s.dedupHash
          (entries.filter (fun e => !s.dedupHash.contains e.event_id))).length →
      (onFetchResult s (Except.ok ⟨some entries, some nsp⟩)).1.dedupHash =
        (pushIds s.dedupHash
          (entries.filter (fun e => !s.dedupHash.contains e.event_id))).filter
          (fun id => entries.any (fun e => e.event_id = id))) ∧
    ((pushIds s.dedupHash
        (entries.filter (fun e => !s.dedupHash.contains e.event_id))).length <
        s.options.deduplicationFilterSize →
      (onFetchResult s (Except.ok ⟨some entries, some nsp⟩)).1.dedupHash =
        pushIds s.dedupHash (entries.filter (fun e => !s.dedupHash.contains e.event_id))) := by
  rw [onFetchResult_ok s entries nsp hn, if_neg (by rw [hne]; exact Bool.false_ne_true)]
  constructor
  · intro hge
    simp only [if_pos hge]
    rfl
  · intro hlt
    simp only [if_neg (Nat.not_le.mpr hlt)]

/-- Witness for C7: with filter size 3, tracked ids `X, Y` and a fetch
whose entries are `[Y, B]`, the set reaches size 3 after pushing `B` and
is pruned to `[Y, B]` — the id `X`, absent from the entries, is
forgotten. -/
theorem c7_dedup_pruning_witness :
    (onFetchResult ⟨"p0", none, 0, ["X", "Y"], false, false, ⟨1000, 3, 1000⟩⟩
        (Except.ok ⟨some [⟨"Y"⟩, ⟨"B"⟩], some "p1"⟩)).1.dedupHash = ["Y", "B"] :=
  ((c7_dedup_pruning ⟨"p0", none, 0, ["X", "Y"], false, false, ⟨1000, 3, 1000⟩⟩
      [⟨"Y"⟩, ⟨"B"⟩] "p1" (by decide) (by decide)).1 (by decide)).trans (by decide)

/-- C8: a live feed at or below the retry cap issues the long-poll wait
request against the info URL with its query parameters preserved and
`stream_position` set to the current position, with timeout
`retry_timeout * 1000` ms, incrementing the attempt counter alongside the
request; a counter strictly exceeding `max_retries` triggers
re-discovery instead of another wait. -/
theorem c8_long_poll_request (s : ESState) (info : LongPollInfo)
    (hd : s.destroyed = false) (hi : s.longPollInfo = some info) :
    (s.longPollRetries ≤ info.max_retries →
      doLongPoll s =
        ({ s with longPollRetries := s.longPollRetries + 1 },
          [Effect.longPollRequest (splitUrlQuery info.url).1
            (setParam (splitUrlQuery info.url).2 "stream_position" s.streamPosition)
            (info.retry_timeout * 1000)])) ∧
    (info.max_retries < s.longPollRetries →
      doLongPoll s = (s, [Effect.requestPollInfo])) ∧
    (∀ k v, k ≠ "stream_position" →
      (k, v) ∈ (splitUrlQuery info.url).2 →
      (k, v) ∈ setParam (splitUrlQuery info.url).2 "stream_position" s.streamPosition) ∧
    (("stream_position", s.streamPosition) ∈
      setParam (splitUrlQuery info.url).2 "stream_position" s.streamPosition) ∧
    (∀ v, ("stream_position", v) ∈
        setParam (splitUrlQuery info.url).2 "stream_position" s.streamPosition →
      v = s.streamPosition) := by
  refine ⟨?_, ?_, ?_, ?_, ?_⟩
  · intro hle
    simp only [doLongPoll, hd, hi, Bool.false_eq_true, if_false]
    rw [if_neg (Nat.not_lt.mpr hle)]
  · intro hgt
    simp only [doLongPoll, hd, hi, Bool.false_eq_true, if_false]
    rw [if_pos hgt]
    simp [getLongPollInfo, hd]
  · intro k v hk hmem
    unfold setParam
    refine List.mem_append.mpr (Or.inl ?_)
    refine List.mem_filter.mpr ⟨hmem, ?_⟩
    simp [hk]
  · unfold setParam
    exact List.mem_append.mpr (Or.inr (List.mem_singleton.mpr rfl))
  · intro v hv
    unfold setParam at hv
    rcases List.mem_append.mp hv with h | h
    · have := (List.mem_filter.mp h).2
      simp at this
    · rw [List.mem_singleton] at h
      exact congrArg Prod.snd h

/-- Witness for C8: a concrete live feed and info URL carrying query
parameters `a=1&b=2`: the wait request preserves them, adds the stream
position, uses a 10000 ms timeout, and the counter goes from 0 to 1. -/
theorem c8_long_poll_request_witness :
    doLongPoll ⟨"pos0", some ⟨3, 10, "http://x/poll?a=1&b=2"⟩, 0, [], false, false,
        DEFAULT_OPTIONS⟩ =
      (⟨"pos0", some ⟨3, 10, "http://x/poll?a=1&b=2"⟩, 1, [], false, false,
          DEFAULT_OPTIONS⟩,
        [Effect.longPollRequest "http://x/poll"
          [("a", "1"), ("b", "2"), ("stream_position", "pos0")] 10000]) :=
  ((c8_long_poll_request ⟨"pos0", some ⟨3, 10, "http://x/poll?a=1&b=2"⟩, 0, [], false,
      false, DEFAULT_OPTIONS⟩ ⟨3, 10, "http://x/poll?a=1&b=2"⟩ rfl rfl).1
    (by decide)).trans (by rfl)

/-- Counterexample to C3: a transport error during the long-poll wait of
a live feed schedules a delayed retry but is NOT emitted on the stream —
no `error` notification appears among the effects, contradicting the
claim that every transport/poll error inside the cycle is emitted. -/
theorem c3_wait_error_not_emitted_counterexample :
    (onLongPollResult ⟨"p0", some ⟨3, 10, "u"⟩, 0, [], false, false, DEFAULT_OPTIONS⟩
        (Except.error ⟨false, "network"⟩)).2 = [Effect.scheduleRetry 1000] ∧
    ((onLongPollResult ⟨"p0", some ⟨3, 10, "u"⟩, 0, [], false, false, DEFAULT_OPTIONS⟩
        (Except.error ⟨false, "network"⟩)).2.all (fun eff => !eff.isError)) = true := by
  exact ⟨by decide, by decide⟩

/-- C3 (amended): on a live feed, a discovery error is emitted and — when
it does not carry the auth-expired marker — schedules a delayed retry
after `retryDelay` ms, while an auth-expired discovery error is emitted
with no retry timer; a long-poll wait error schedules a retry but is not
emitted; a fetch error is emitted and schedules a retry.  None of these
paths throws out of the pull interface (each handler returns normally). -/
theorem c3_error_emission_and_retry (s : ESState) (e : FeedErr)
    (hd : s.destroyed = false) :
    (e.authExpired = false →
      onPollInfoResult s (Except.error e) =
        ({ s with retryTimer := true },
          [Effect.emitError e, Effect.scheduleRetry s.options.retryDelay])) ∧
    (e.authExpired = true →
      onPollInfoResult s (Except.error e) = (s, [Effect.emitError e])) ∧
    (onLongPollResult s (Except.error e) =
      ({ s with retryTimer := true }, [Effect.scheduleRetry s.options.retryDelay])) ∧
    (onFetchResult s (Except.error e) =
      ({ s with retryTimer := true },
        [Effect.emitError e, Effect.scheduleRetry s.options.retryDelay])) := by
  refine ⟨?_, ?_, ?_, ?_⟩
  · intro ha
    simp [onPollInfoResult, retryPollInfo, ha, hd]
  · intro ha
    simp [onPollInfoResult, ha]
  · simp [onLongPollResult, retryPollInfo, hd]
  · simp [onFetchResult, retryPollInfo, hd]

/-- Witness for C3 (amended): concrete live feed; an auth-expired
discovery error is emitted with no retry scheduled. -/
theorem c3_error_emission_and_retry_witness :
    onPollInfoResult ⟨"p0", none, 0, [], false, false, DEFAULT_OPTIONS⟩
        (Except.error ⟨true, "expired"⟩) =
      (⟨"p0", none, 0, [], false, false, DEFAULT_OPTIONS⟩,
        [Effect.emitError ⟨true, "expired"⟩]) :=
  (c3_error_emission_and_retry ⟨"p0", none, 0, [], false, false, DEFAULT_OPTIONS⟩
    ⟨true, "expired"⟩ rfl).2.1 rfl

/-- Counterexample to C9: on an already-destroyed feed, the fetch
continuation does not short-circuit: a successful fetch response still
advances the stream position, records the id, and pushes the event to
the consumer. -/
theorem c9_destroyed_fetch_still_pushes_counterexample :
    ((⟨"p0", none, 0, [], false, true, DEFAULT_OPTIONS⟩ : ESState).destroyed = true) ∧
    onFetchResult ⟨"p0", none, 0, [], false, true, DEFAULT_OPTIONS⟩
        (Except.ok ⟨some [⟨"A"⟩], some "p1"⟩) =
      (⟨"p1", none, 0, ["A"], false, true, DEFAULT_OPTIONS⟩, [Effect.pushEvent ⟨"A"⟩]) := by
  exact ⟨rfl, by decide⟩

/-- C9 (amended): destruction is idempotent — a second `destroy` changes
nothing and produces no effects, hence no duplicate close — and
destroying a live feed cancels any pending retry timer; the entry points
of discovery, long-poll and fetch, the retry scheduler, and the long-poll
continuation all short-circuit on a destroyed feed; the fetch
continuation, however, does not re-check the flag (see the
counterexample). -/
theorem c9_destroy_idempotent (s : ESState) :
    destroy ((destroy s).1) = ((destroy s).1, []) ∧
    (destroy s).1.destroyed = true ∧
    (s.destroyed = false → (destroy s).1.retryTimer = false) ∧
    (s.destroyed = true →
      getLongPollInfo s = (s, []) ∧ doLongPoll s = (s, []) ∧ fetchEvents s = (s, []) ∧
      retryPollInfo s = (s, []) ∧
      ∀ r, onLongPollResult s r = (s, [])) := by
  by_cases hdes : s.destroyed = true
  · have h1 : destroy s = (s, []) := by simp [destroy, hdes]
    refine ⟨by rw [h1]; exact h1, by rw [h1]; exact hdes, ?_, ?_⟩
    · intro hf
      rw [hf] at hdes
      exact absurd hdes (by simp)
    · intro _
      refine ⟨by simp [getLongPollInfo, hdes], by simp [doLongPoll, hdes],
        by simp [fetchEvents, hdes], by simp [retryPollInfo, hdes], ?_⟩
      intro r
      cases r with
      | error e => simp [onLongPollResult, retryPollInfo, hdes]
      | ok d => simp [onLongPollResult, hdes]
  · have hdf : s.destroyed = false := by
      cases h : s.destroyed
      · rfl
      · exact absurd h hdes
    have h1 : destroy s = ({ s with destroyed := true, retryTimer := false },
        [Effect.emitClose]) := by
      simp [destroy, hdf]
    refine ⟨?_, by rw [h1], by intro _; rw [h1], ?_⟩
    · rw [h1]
      simp [destroy]
    · intro hcontra
      rw [hcontra] at hdf
      exact absurd hdf (by simp)

/-- Witness for C9 (amended): a concrete destroyed feed with a pending
timer-free state: the long-poll entry point is a no-op. -/
theorem c9_destroy_idempotent_witness :
    doLongPoll ⟨"p0", some ⟨3, 10, "u"⟩, 0, [], false, true, DEFAULT_OPTIONS⟩ =
      (⟨"p0", some ⟨3, 10, "u"⟩, 0, [], false, true, DEFAULT_OPTIONS⟩, []) :=
  ((c9_destroy_idempotent ⟨"p0", some ⟨3, 10, "u"⟩, 0, [], false, true,
    DEFAULT_OPTIONS⟩).2.2.2 rfl).2.1

end BoxSdk
